import Mathlib

/-
  Verification of the fixed-point exp-table synthesizer and the
  arbitrary-precision formula oracle
  (solidity/python/constants/optimize/PrintFunctionExp.py,
   solidity/python/constants/optimize/constants.py,
   solidity/python/FormulaNativePython/__init__.py).

  Integer parts of the synthesizer are embedded over ℕ exactly as the
  source computes them; the transcendental constants produced by the
  source's 100-significant-digit Decimal context are carried as their
  exact rational values (numerator over 10^99).
-/

set_option maxRecDepth 40000

namespace Bancor

/-- Constant from constants.py: `PRECISION = 127`. -/
def PRECISION : ℕ := 127

/-- Constant from constants.py: `EXP_MAX_HI_TERM_VAL = 3`. -/
def EXP_MAX_HI_TERM_VAL : ℕ := 3

/-- Constant from constants.py: `EXP_NUM_OF_HI_TERMS = 6`. -/
def EXP_NUM_OF_HI_TERMS : ℕ := 6

/-- From PrintFunctionExp.py: `FIXED_ONE = (1<<PRECISION)`. -/
def FIXED_ONE : ℕ := 1 <<< PRECISION

/-- Common denominator used to carry the source's 100-significant-digit
Decimal values of `e^(2^(n-3))` as exact rationals. -/
def SCALE : ℕ := 10 ^ 99

/-- Numerators over `SCALE` of the exact values returned by
`Decimal(2**(n-EXP_MAX_HI_TERM_VAL)).exp()` in PrintFunctionExp.py under
`getcontext().prec = 100` (a Decimal with 100 significant digits is an
exact rational; trailing zeros pad each value to denominator 10^99).
Index n runs from 0 to EXP_NUM_OF_HI_TERMS. -/
def curNum : ℕ → ℕ
  | 0 => 1133148453066826316829007227811793872565503131745181625912820036078823577880048386513939990794941729
  | 1 => 1284025416687741484073420568062436458336280865281463089217507296872207765867238002753306419439553569
  | 2 => 1648721270700128146848650787814163571653776100710148011575079311640661021194215608632776520056366643
  | 3 => 2718281828459045235360287471352662497757247093699959574966967627724076630353547594571382178525166427
  | 4 => 7389056098930650227230427460575007813180315570551847324087127822522573796079057763384312485079121795
  | 5 => 54598150033144239078110261202860878402790737038614068725826593958553662099935869481676980561944734140
  | 6 => 2980957987041728274743592099452888673755967939132835702208963530387730725173367530157371871490018139000
  | _ + 7 => 0

/-- The value of `e^(2^(n-3))` used by the builder, as an exact rational. -/
def curQ (n : ℕ) : ℚ := (curNum n : ℚ) / (SCALE : ℚ)

/-- HiTerm record from PrintFunctionExp.py:
`HiTerm = namedtuple('HiTerm','bit,num,den')`. -/
structure HiTerm where
  bit : ℕ
  num : ℕ
  den : ℕ
deriving DecidableEq, Repr

/-- LoTerm record from PrintFunctionExp.py:
`LoTerm = namedtuple('LoTerm','val,ind')`. -/
structure LoTerm where
  val : ℕ
  ind : ℕ
deriving DecidableEq, Repr

/-- From PrintFunctionExp.py:
`top = int(Decimal(2**(0-EXP_MAX_HI_TERM_VAL)).exp()*FIXED_ONE)-1`.
`int` truncates the positive product, i.e. ℕ-division by `SCALE`. -/
def top0 : ℕ := curNum 0 * FIXED_ONE / SCALE - 1

/-- One iteration of the hi-term loop of PrintFunctionExp.py:
`den = int(((1<<256)-1)/(cur*top))`, `num = int(den*cur)`,
`top = top*num//den`, `bit = (FIXED_ONE<<n)>>EXP_MAX_HI_TERM_VAL`.
With `cur = curNum n / SCALE` the two truncations are exact ℕ-divisions. -/
def hiStep (top n : ℕ) : HiTerm × ℕ :=
  let den := (2 ^ 256 - 1) * SCALE / (curNum n * top)
  let num := den * curNum n / SCALE
  let bit := (FIXED_ONE <<< n) >>> EXP_MAX_HI_TERM_VAL
  (⟨bit, num, den⟩, top * num / den)

/-- The hi-term loop `for n in range(EXP_NUM_OF_HI_TERMS+1)`, threading the
running bound `top`; the last argument counts the remaining iterations. -/
def hiBuild : ℕ → ℕ → ℕ → List HiTerm
  | _, _, 0 => []
  | top, n, cnt + 1 => (hiStep top n).1 :: hiBuild (hiStep top n).2 (n + 1) cnt

/-- The emitted hi-term table `hiTerms` of PrintFunctionExp.py. -/
def hiTerms : List HiTerm := hiBuild top0 0 (EXP_NUM_OF_HI_TERMS + 1)

/-- Indexed access to the emitted table (out-of-range gives a zero record). -/
def hiTerm (n : ℕ) : HiTerm := hiTerms.getD n ⟨0, 0, 0⟩

/-- From PrintFunctionExp.py: `MAX_VAL = hiTerms[-1].bit-1`. -/
def MAX_VAL : ℕ := (hiTerms.getLastD ⟨0, 0, 0⟩).bit - 1

/-- Walk the hi-term table with a selection of terms (one flag per term,
as the emitted kernel selects terms by bits of its input), starting from
running value `res`; check that every multiply `res * num` performed
before the corresponding divide stays within `2^256 - 1`. -/
def chainCheck : ℕ → List HiTerm → List Bool → Bool
  | _, [], _ => true
  | _, _ :: _, [] => true
  | res, t :: ts, b :: bs =>
    if b then
      decide (res * t.num ≤ 2 ^ 256 - 1) && chainCheck (res * t.num / t.den) ts bs
    else
      chainCheck res ts bs

/-- Modelled from the spec: the repository imports `from functions import exp`
but the `functions` module is not among the sources; §4.4
(FixedPointExpEvaluator) and the emitted kernel format in §6 specify it:
reduce the input modulo the first hi-term's bit to get `y`; starting from
`z = y` and `res = 0`, for each lo-term after the first do
`z = z*y/FIXED_ONE; res += z*val`; then `res = res/lo[0].val + y + FIXED_ONE`;
finally for each hi-term except the last, if the term's bit is set in the
input, `res = res*num/den`. All divisions are truncating integer divisions. -/
def expEval (x : ℕ) (hi : List HiTerm) (lo : List LoTerm) (fixedOne : ℕ) : ℕ :=
  let y := x % (hi.headD ⟨0, 0, 0⟩).bit
  let rz := lo.tail.foldl
    (fun (p : ℕ × ℕ) t =>
      let z := p.2 * y / fixedOne
      (p.1 + z * t.val, z))
    (0, y)
  let res := rz.1 / (lo.headD ⟨1, 1⟩).val + y + fixedOne
  hi.dropLast.foldl (fun r t => if x &&& t.bit ≠ 0 then r * t.num / t.den else r) res

/-- The candidate lo-term list of term count `n` built in PrintFunctionExp.py:
`val = factorial(n)`, `loTermsNext = [LoTerm(val//factorial(i+1),i+1) for i in range(n)]`. -/
def mkLoTerms (n : ℕ) : List LoTerm :=
  (List.range n).map fun i => ⟨Nat.factorial n / Nat.factorial (i + 1), i + 1⟩

/-- The initial lo-term candidate of PrintFunctionExp.py: `loTerms = [LoTerm(1,1)]`. -/
def loInit : List LoTerm := [⟨1, 1⟩]

/-- The next candidate built from the current one (`n = len(loTerms)+1`). -/
def loNext (lo : List LoTerm) : List LoTerm := mkLoTerms (lo.length + 1)

/-- The precision score of a candidate: `exp(MAX_VAL,hiTerms,·,FIXED_ONE)`. -/
def loScore (lo : List LoTerm) : ℕ := expEval MAX_VAL hiTerms lo FIXED_ONE

/-- The score of the initial candidate:
`res = exp(MAX_VAL,hiTerms,loTerms,FIXED_ONE)` before the loop. -/
def res0 : ℕ := loScore loInit

/-- The `while True` lo-term search loop of PrintFunctionExp.py, with an
explicit iteration budget (`fuel`); `none` means the budget was exhausted
before the loop stopped. Each iteration builds the next candidate, scores
it, accepts it when the score strictly improves, and otherwise stops with
the current best `(res, loTerms)`. -/
def loSearch : ℕ → ℕ → List LoTerm → Option (ℕ × List LoTerm)
  | 0, _, _ => none
  | fuel + 1, res, lo =>
    if res < loScore (loNext lo) then loSearch fuel (loScore (loNext lo)) (loNext lo)
    else some (res, lo)

/-- Shape invariant of an accepted lo-term list of length k:
entry i is `⟨k!/(i+1)!, i+1⟩`. -/
def loShape (lo : List LoTerm) : Prop :=
  ∀ i : Fin lo.length,
    lo.get i = ⟨Nat.factorial lo.length / Nat.factorial (i.1 + 1), i.1 + 1⟩

/-
  FormulaNativePython/__init__.py: the arbitrary-precision oracle.
  Decimal arithmetic is modelled over ℝ (the spec treats the oracle as
  exact real arithmetic); a Decimal division by zero raises, so each
  formula whose denominator can vanish returns `Option ℝ` with `none` on
  that domain error. Decimal's invalid-power errors (negative base with
  fractional exponent, zero base with nonpositive exponent) cannot occur
  under the preconditions of any claim below and are not modelled.
-/

/-- From FormulaNativePython/__init__.py:
`calculatePurchaseReturn(supply, balance, weight, amount) =
 supply*((1+amount/balance)**(weight/1000000)-1)`;
`none` when `balance = 0` (Decimal division by zero raises). -/
noncomputable def calculatePurchaseReturn (supply balance weight amount : ℝ) : Option ℝ :=
  if balance = 0 then none
  else some (supply * ((1 + amount / balance) ^ (weight / 1000000) - 1))

/-- From FormulaNativePython/__init__.py:
`calculateLiquidateReturn(supply, balance, weights, amount) =
 balance*(1-((supply-amount)/supply)**(1000000/weights))`;
`none` when `supply = 0` or `weights = 0` (Decimal division by zero raises). -/
noncomputable def calculateLiquidateReturn (supply balance weights amount : ℝ) : Option ℝ :=
  if supply = 0 ∨ weights = 0 then none
  else some (balance * (1 - ((supply - amount) / supply) ^ (1000000 / weights)))

/-- From FormulaNativePython/__init__.py:
`power(baseN, baseD, expN, expD, precision) =
 (baseN/baseD)**(expN/expD)*2**precision`;
`none` when `baseD = 0` or `expD = 0` (Decimal division by zero raises). -/
noncomputable def power (baseN baseD expN expD precision : ℝ) : Option ℝ :=
  if baseD = 0 ∨ expD = 0 then none
  else some ((baseN / baseD) ^ (expN / expD) * (2 : ℝ) ^ precision)

/-- The argument handed to `.exp()` in the hi-term loop of
PrintFunctionExp.py: `2**(n-EXP_MAX_HI_TERM_VAL)` (for `n < 3` Python
evaluates this as a float, exactly, since it is a power of two). -/
def curArg (n : ℕ) : ℚ := 2 ^ n / 2 ^ 3

/-- The continuous correction value of hi-term `n`: the real number whose
100-digit Decimal evaluation the builder uses, namely
`exp` applied to the source's argument `2**(n-EXP_MAX_HI_TERM_VAL)`. -/
noncomputable def curCont (n : ℕ) : ℝ := Real.exp ((curArg n : ℚ) : ℝ)

/- ------------------------------------------------------------------ -/
/- Theorems                                                            -/
/- ------------------------------------------------------------------ -/

/-- C1: for every subset of the emitted hi-term correction ratios (every
input in the valid domain selects such a subset by its bits), the
composed product — the running value multiplied by each selected term's
`num` before dividing by its `den`, starting from the bound `top` — never
exceeds `2^256 - 1`, so the emitted kernel's multiply-then-divide chain
cannot overflow a 256-bit word. -/
theorem hiTerms_no_overflow :
    ∀ s : Fin 7 → Bool, chainCheck top0 hiTerms (List.ofFn s) = true := by
  decide

/-- C2: the emitted hi-term sequence has strictly increasing `bit` values
across its ordered entries, and the `MAX_VAL` handed to the lo-term
search equals the last hi-term's `bit` minus 1. -/
theorem hiTerms_bits_increasing_and_maxval :
    hiTerms.Pairwise (fun a b => a.bit < b.bit) ∧
    MAX_VAL = (hiTerms.getLastD ⟨0, 0, 0⟩).bit - 1 :=
  ⟨by decide, rfl⟩

/-- Positivity of the carrier denominator of the Decimal constants. -/
theorem scaleQ_pos : (0 : ℚ) < (SCALE : ℕ) := by
  have : (0 : ℕ) < SCALE := by decide
  exact_mod_cast this

/-- Truncation bounds behind C4: in ℕ, each emitted `num` is the integer
part of `den * cur` (`num * SCALE ≤ den * curNum < (num + 1) * SCALE`). -/
theorem hiTerm_num_bounds :
    ∀ n, n < 7 →
      (hiTerm n).num * SCALE ≤ (hiTerm n).den * curNum n ∧
      (hiTerm n).den * curNum n < ((hiTerm n).num + 1) * SCALE := by
  decide

/-- C4 counterexample: for term index 3 the emitted `num` is NOT
`round(den * cur)`: the fractional part of `den * cur` exceeds one half,
so rounding to nearest would give `num + 1`; `int()` truncates instead. -/
theorem hiTerm_num_ne_round :
    ((hiTerm 3).num : ℤ) ≠ round (((hiTerm 3).den : ℚ) * curQ 3) := by
  have hS : (0 : ℚ) < ((2 * SCALE : ℕ) : ℚ) := by
    have : (0 : ℕ) < 2 * SCALE := by decide
    exact_mod_cast this
  have hx : ((hiTerm 3).den : ℚ) * curQ 3 + 1 / 2 =
      ((2 * ((hiTerm 3).den * curNum 3) + SCALE : ℕ) : ℚ) / ((2 * SCALE : ℕ) : ℚ) := by
    unfold curQ
    have hS0 : ((SCALE : ℕ) : ℚ) ≠ 0 := ne_of_gt scaleQ_pos
    push_cast
    field_simp
    ring
  have hlo : ((hiTerm 3).num + 1) * (2 * SCALE) ≤
      2 * ((hiTerm 3).den * curNum 3) + SCALE := by decide
  have hhi : 2 * ((hiTerm 3).den * curNum 3) + SCALE <
      ((hiTerm 3).num + 2) * (2 * SCALE) := by decide
  have hfl : round (((hiTerm 3).den : ℚ) * curQ 3) = ((hiTerm 3).num : ℤ) + 1 := by
    rw [round_eq, hx, Int.floor_eq_iff]
    constructor
    · rw [le_div_iff₀ hS]
      have h1 : ((((hiTerm 3).num + 1) * (2 * SCALE) : ℕ) : ℚ) ≤
          ((2 * ((hiTerm 3).den * curNum 3) + SCALE : ℕ) : ℚ) := by exact_mod_cast hlo
      push_cast at h1 ⊢
      linarith
    · rw [div_lt_iff₀ hS]
      have h2 : ((2 * ((hiTerm 3).den * curNum 3) + SCALE : ℕ) : ℚ) <
          ((((hiTerm 3).num + 2) * (2 * SCALE) : ℕ) : ℚ) := by exact_mod_cast hhi
      push_cast at h2 ⊢
      linarith
  intro h
  rw [hfl] at h
  omega

/-- C4 amended: for every term index `n` the emitted `num` equals
`den * cur` truncated to an integer (`int(den*cur)`, i.e. the floor of
the positive product), not rounded to nearest. -/
theorem hiTerm_num_is_truncation :
    ∀ n, n < 7 → ((hiTerm n).num : ℤ) = ⌊((hiTerm n).den : ℚ) * curQ n⌋ := by
  intro n hn
  have h := hiTerm_num_bounds n hn
  symm
  rw [Int.floor_eq_iff]
  unfold curQ
  rw [mul_div_assoc']
  constructor
  · rw [le_div_iff₀ scaleQ_pos]
    push_cast
    exact_mod_cast h.1
  · rw [div_lt_iff₀ scaleQ_pos]
    push_cast
    exact_mod_cast h.2

/-- C4 amended, witness at term index 3. -/
theorem hiTerm_num_is_truncation_witness :
    ((hiTerm 3).num : ℤ) = ⌊((hiTerm 3).den : ℚ) * curQ 3⌋ :=
  hiTerm_num_is_truncation 3 (by norm_num)

/-- C6 counterexample: the concrete scenario claim fails in its last
conjunct — the last hi-term's `bit` does not exceed `FIXED_ONE * 2^3`
(it equals it). -/
theorem hiTerms_scenario_not_exceeding :
    ¬ (hiTerms.length = 7 ∧ hiTerms.Pairwise (fun a b => a.bit < b.bit) ∧
       FIXED_ONE * 2 ^ 3 < (hiTerms.getLastD ⟨0, 0, 0⟩).bit) := by
  decide

/-- C6 amended: with `PRECISION = 127`, `EXP_MAX_HI_TERM_VAL = 3` and
`EXP_NUM_OF_HI_TERMS = 6`, the builder produces exactly 7 hi-term entries
with strictly increasing `bit` values, and the last entry's `bit` equals
`FIXED_ONE * 2^3`. -/
theorem hiTerms_concrete_scenario :
    hiTerms.length = 7 ∧ hiTerms.Pairwise (fun a b => a.bit < b.bit) ∧
    (hiTerms.getLastD ⟨0, 0, 0⟩).bit = FIXED_ONE * 2 ^ 3 := by
  decide

/-- C5: the lo-term search accepts a larger candidate exactly when its
precision score strictly improves on the current best, halts at the first
non-improving step keeping the previous best candidate, and — on the
synthesized table — terminates within 64 candidate term counts. -/
theorem loSearch_stops :
    (loSearch 64 res0 loInit).isSome = true ∧
    (∀ fuel res lo, res < loScore (loNext lo) →
        loSearch (fuel + 1) res lo = loSearch fuel (loScore (loNext lo)) (loNext lo)) ∧
    (∀ fuel res lo, ¬ res < loScore (loNext lo) →
        loSearch (fuel + 1) res lo = some (res, lo)) := by
  refine ⟨by decide, ?_, ?_⟩
  · intro fuel res lo h
    simp only [loSearch]
    rw [if_pos h]
  · intro fuel res lo h
    simp only [loSearch]
    rw [if_neg h]

/-- C5 witness: both stopping behaviours at concrete inputs — a score
that cannot improve on `2^256` stops at once keeping the previous best,
and a zero score is strictly improved so the loop recurses. -/
theorem loSearch_stops_witness :
    loSearch 1 (2 ^ 256) loInit = some (2 ^ 256, loInit) ∧
    loSearch 1 0 loInit = loSearch 0 (loScore (loNext loInit)) (loNext loInit) :=
  ⟨loSearch_stops.2.2 0 (2 ^ 256) loInit (by decide),
   loSearch_stops.2.1 0 0 loInit (by decide)⟩

/-- Every candidate list built by `mkLoTerms` satisfies the factorial
shape invariant. -/
theorem mkLoTerms_shape (m : ℕ) : loShape (mkLoTerms m) := by
  intro i
  simp only [loShape, mkLoTerms, List.get_eq_getElem, List.getElem_map, List.getElem_range,
    List.length_map, List.length_range]

/-- C9: whenever the lo-term search returns an accepted list, that list
satisfies the factorial shape invariant — entry `i` of a `k`-term list is
`⟨k!/(i+1)!, i+1⟩` — and in particular its first entry's `val` is `k!`,
the divisor the emitter places in its finalizing line. -/
theorem loSearch_shape (fuel res : ℕ) (lo : List LoTerm) (r : ℕ × List LoTerm)
    (hlo : loShape lo) (h : loSearch fuel res lo = some r) :
    loShape r.2 ∧ (r.2.headD ⟨1, 1⟩).val = Nat.factorial r.2.length := by
  induction fuel generalizing res lo with
  | zero => simp [loSearch] at h
  | succ n ih =>
    rw [loSearch] at h
    by_cases hc : res < loScore (loNext lo)
    · rw [if_pos hc] at h
      exact ih (loScore (loNext lo)) (loNext lo) (mkLoTerms_shape _) h
    · rw [if_neg hc] at h
      have hr : r = (res, lo) := by
        cases h
        rfl
      subst hr
      refine ⟨hlo, ?_⟩
      cases lo with
      | nil => rfl
      | cons a l =>
        have h0 := hlo ⟨0, by simp⟩
        simp only [List.get_eq_getElem, List.getElem_cons_zero, List.length_cons] at h0
        simp only [List.headD_cons, List.length_cons]
        rw [h0]
        simp

/-- C9 witness: the invariant holds of the list the search actually
accepts on the synthesized table. -/
theorem loSearch_shape_witness :
    loShape ((loSearch 64 res0 loInit).getD (0, [])).2 ∧
    (((loSearch 64 res0 loInit).getD (0, [])).2.headD ⟨1, 1⟩).val =
      Nat.factorial ((loSearch 64 res0 loInit).getD (0, [])).2.length :=
  loSearch_shape 64 res0 loInit ((loSearch 64 res0 loInit).getD (0, []))
    (by intro i; fin_cases i; rfl) (by decide)

/-- C3 counterexample: the continuous correction value the builder uses
for term index 0 is `e^(2^(0-3)) = e^(1/8)`, not `e^(0-3)`: the loop
exponentiates `2^(n - EXP_MAX_HI_TERM_VAL)`, not `n - EXP_MAX_HI_TERM_VAL`. -/
theorem curCont_zero_ne_exp_sub :
    curCont 0 ≠ Real.exp ((0 : ℝ) - 3) := by
  unfold curCont curArg
  intro h
  rw [Real.exp_eq_exp] at h
  have : ((2 ^ 0 / 2 ^ 3 : ℚ) : ℝ) = 1 / 8 := by
    push_cast
    norm_num
  rw [this] at h
  norm_num at h

/-- C3 amended: for every term index `n` the continuous correction value
used by the hi-term builder equals `e^(2^(n - EXP_MAX_HI_TERM_VAL))`,
i.e. `e^(2^(n-3))`. -/
theorem curCont_eq_exp_pow (n : ℕ) :
    curCont n = Real.exp ((2 : ℝ) ^ ((n : ℝ) - 3)) := by
  unfold curCont curArg
  congr 1
  have h3 : ((3 : ℕ) : ℝ) = (3 : ℝ) := by norm_num
  rw [Real.rpow_sub (by norm_num : (0 : ℝ) < 2), ← h3, Real.rpow_natCast, Real.rpow_natCast]
  push_cast
  ring

/-- C7 counterexample: under only the stated preconditions
(`balance > 0`, `0 < ratio ≤ 1000000`) the purchase return is not
strictly increasing in `amount`: at `supply = 0` it is constantly zero. -/
theorem calculatePurchaseReturn_not_strict_mono :
    ¬ (∀ supply balance weight a₁ a₂ : ℝ, 0 ≤ supply → 0 < balance →
        0 < weight → weight ≤ 1000000 → 0 ≤ a₁ → a₁ < a₂ →
        ∀ v₁ v₂ : ℝ, calculatePurchaseReturn supply balance weight a₁ = some v₁ →
          calculatePurchaseReturn supply balance weight a₂ = some v₂ → v₁ < v₂) := by
  intro h
  have h1 : calculatePurchaseReturn 0 1 1 0 = some 0 := by
    unfold calculatePurchaseReturn
    rw [if_neg (by norm_num : ¬ (1 : ℝ) = 0)]
    norm_num
  have h2 : calculatePurchaseReturn 0 1 1 1 = some 0 := by
    unfold calculatePurchaseReturn
    rw [if_neg (by norm_num : ¬ (1 : ℝ) = 0)]
    norm_num
  exact absurd (h 0 1 1 0 1 le_rfl one_pos one_pos (by norm_num) le_rfl one_pos 0 0 h1 h2)
    (lt_irrefl 0)

/-- C7 amended: with the additional precondition `supply > 0` (absent
from the stated precondition list), the purchase return is strictly
increasing in `amount` over non-negative amounts, and it evaluates to
zero at `amount = 0`. -/
theorem calculatePurchaseReturn_strict_mono_and_zero
    (supply balance weight a₁ a₂ : ℝ) (hs : 0 < supply) (hb : 0 < balance)
    (hw : 0 < weight) (hw2 : weight ≤ 1000000) (ha1 : 0 ≤ a₁) (ha : a₁ < a₂) :
    (∃ v₁ v₂ : ℝ, calculatePurchaseReturn supply balance weight a₁ = some v₁ ∧
        calculatePurchaseReturn supply balance weight a₂ = some v₂ ∧ v₁ < v₂) ∧
    calculatePurchaseReturn supply balance weight 0 = some 0 := by
  have hbne : ¬ balance = 0 := ne_of_gt hb
  constructor
  · refine ⟨supply * ((1 + a₁ / balance) ^ (weight / 1000000) - 1),
      supply * ((1 + a₂ / balance) ^ (weight / 1000000) - 1), ?_, ?_, ?_⟩
    · unfold calculatePurchaseReturn
      rw [if_neg hbne]
    · unfold calculatePurchaseReturn
      rw [if_neg hbne]
    · have hdiv : a₁ / balance < a₂ / balance := by gcongr
      have hstep : (1 + a₁ / balance) ^ (weight / 1000000) <
          (1 + a₂ / balance) ^ (weight / 1000000) := by
        apply Real.rpow_lt_rpow
        · positivity
        · linarith
        · positivity
      have := sub_lt_sub_right hstep 1
      exact mul_lt_mul_of_pos_left this hs
  · unfold calculatePurchaseReturn
    rw [if_neg hbne]
    rw [zero_div, add_zero, Real.one_rpow, sub_self, mul_zero]

/-- C7 amended, witness at `supply = balance = 1`, `ratio = 1000000`,
amounts 0 and 1. -/
theorem calculatePurchaseReturn_strict_mono_witness :
    (∃ v₁ v₂ : ℝ, calculatePurchaseReturn 1 1 1000000 0 = some v₁ ∧
        calculatePurchaseReturn 1 1 1000000 1 = some v₂ ∧ v₁ < v₂) ∧
    calculatePurchaseReturn 1 1 1000000 0 = some 0 :=
  calculatePurchaseReturn_strict_mono_and_zero 1 1 1000000 0 1 one_pos one_pos
    (by norm_num) (by norm_num) le_rfl one_pos

/-- C8 counterexample: at `b = 0` (with `e = 1`, `p = 0`) the oracle's
division `b / b` is a Decimal division by zero, which raises (modelled
`none`); no value `2^p` is returned. -/
theorem power_unit_ratio_fails_at_zero :
    ¬ (∀ p b e : ℝ, power b b e e p = some ((2 : ℝ) ^ p)) := by
  intro h
  have h0 := h 0 0 1
  unfold power at h0
  rw [if_pos (Or.inl rfl)] at h0
  exact Option.noConfusion h0

/-- C8 amended: for any `p` and any nonzero `b`, `e`,
`power(b, b, e, e, p)` returns exactly `2^p`. -/
theorem power_unit_ratio (p b e : ℝ) (hb : b ≠ 0) (he : e ≠ 0) :
    power b b e e p = some ((2 : ℝ) ^ p) := by
  unfold power
  rw [if_neg (by push_neg; exact ⟨hb, he⟩)]
  rw [div_self hb, Real.one_rpow, one_mul]

/-- C8 amended, witness at `p = 3`, `b = 2`, `e = 5`. -/
theorem power_unit_ratio_witness : power 2 2 5 5 3 = some ((2 : ℝ) ^ (3 : ℝ)) :=
  power_unit_ratio 3 2 5 (by norm_num) (by norm_num)

/-- C10: for every `supply > 0`, `balance ≥ 0` and `weights > 0`, full
liquidation returns the entire reserve exactly:
`calculateLiquidateReturn(supply, balance, weights, supply) = balance`. -/
theorem calculateLiquidateReturn_full (supply balance weights : ℝ)
    (hs : 0 < supply) (hb : 0 ≤ balance) (hw : 0 < weights) :
    calculateLiquidateReturn supply balance weights supply = some balance := by
  unfold calculateLiquidateReturn
  rw [if_neg (by push_neg; exact ⟨ne_of_gt hs, ne_of_gt hw⟩)]
  rw [sub_self, zero_div, Real.zero_rpow (div_ne_zero (by norm_num) (ne_of_gt hw))]
  norm_num

/-- C10 witness at `supply = 2`, `balance = 5`, `weights = 7`. -/
theorem calculateLiquidateReturn_full_witness :
    calculateLiquidateReturn 2 5 7 2 = some 5 :=
  calculateLiquidateReturn_full 2 5 7 (by norm_num) (by norm_num) (by norm_num)

end Bancor
